import Mathlib

/-!
Formal model of the Vocalis interruptible streaming pipeline: the TTS client
(`src/backend/services/tts.py`, class `TTSClient`) and the Gradio client
orchestrator (`src/gradio_app.py`).

Modelling conventions:
- audio bytes are `List Nat`;
- the Python dict backing the audio cache is an insertion-ordered association
  list, matching CPython dict semantics: `text in d` is key lookup,
  `d[text] = v` updates in place when the key exists and appends otherwise,
  `next(iter(d))` is the first (oldest-inserted) key, `d.pop(first)` removes it;
- the upstream `requests.post` outcome is passed in as an argument
  (`Except.error ()` means the request or `raise_for_status` raised);
- wall-clock fields (`last_processing_time`, `time.time()`) are omitted;
- each synchronous entry point also reports how many upstream POSTs it issued,
  so "zero upstream network calls" is a statement about the model, not a gloss.
-/

set_option maxRecDepth 100000

/-- Audio bytes (Python `bytes`). -/
abbrev ByteStr := List Nat

/-- Concatenation of a list of byte strings (`b"".join(chunks)`). -/
def bjoin : List ByteStr → ByteStr
  | [] => []
  | c :: cs => c ++ bjoin cs

/-- `text in cache` / `cache[text]`: first association for the key, if any. -/
def dictLookup (d : List (String × ByteStr)) (k : String) : Option ByteStr :=
  match d with
  | [] => none
  | (k2, v) :: rest => if k2 = k then some v else dictLookup rest k

/-- `cache[text] = v`: update in place when the key exists, append otherwise
(CPython dict assignment keeps the position of an existing key). -/
def dictInsert (d : List (String × ByteStr)) (k : String) (v : ByteStr) :
    List (String × ByteStr) :=
  match d with
  | [] => [(k, v)]
  | (k2, v2) :: rest =>
      if k2 = k then (k2, v) :: rest else (k2, v2) :: dictInsert rest k v

/-- `cache.pop(next(iter(cache)))`: remove the oldest-inserted entry. -/
def dictPopFirst (d : List (String × ByteStr)) : List (String × ByteStr) :=
  d.tail

/-- The mutable state of `TTSClient` relevant to the cache and processing flag
(`__init__`, tts.py lines 61-73).  `cache_max_size` is fixed at 50 by
`__init__` (see `initState`). -/
structure TTSState where
  cache : List (String × ByteStr)
  cache_hits : Nat
  cache_misses : Nat
  is_processing : Bool
  cache_max_size : Nat
deriving Repr, DecidableEq

/-- The state of a freshly constructed `TTSClient` (tts.py lines 62-70):
empty cache, `cache_max_size = 50`, counters at zero. -/
def initState : TTSState :=
  { cache := [], cache_hits := 0, cache_misses := 0, is_processing := false
    cache_max_size := 50 }

/-- `TTSClient.text_to_speech` (tts.py lines 80-156).  `up` is the outcome of
the upstream `requests.post` (`Except.error ()` = a raised exception, which the
function re-raises after logging).  Result: (returned/raised value, state after
the call, number of upstream POSTs issued).  The `finally` block always leaves
`is_processing = False`.  Cache admission (lines 130-137): insert while below
`cache_max_size`; at capacity, only texts shorter than 100 characters are
admitted, by first popping the oldest entry; longer texts are dropped. -/
def text_to_speech (s : TTSState) (text : String) (up : Except Unit ByteStr) :
    Except Unit ByteStr × TTSState × Nat :=
  match dictLookup s.cache text with
  | some audio =>
      (Except.ok audio,
       { s with cache_hits := s.cache_hits + 1, is_processing := false }, 0)
  | none =>
      let s1 : TTSState := { s with cache_misses := s.cache_misses + 1 }
      match up with
      | Except.error e => (Except.error e, { s1 with is_processing := false }, 1)
      | Except.ok audio =>
          let cache1 :=
            if s1.cache.length < s1.cache_max_size then
              dictInsert s1.cache text audio
            else if text.length < 100 then
              if s1.cache = [] then s1.cache
              else dictInsert (dictPopFirst s1.cache) text audio
            else s1.cache
          (Except.ok audio,
           { s1 with cache := cache1, is_processing := false }, 1)

/-- `TTSClient.async_text_to_speech` (tts.py lines 336-376).  On a cache hit it
returns without the thread hop; on a miss it runs `text_to_speech` in a worker
thread and then stores the result in the cache unconditionally (line 366).
Its `except Exception` catches every error and returns `b""` instead, so the
model is a total function into `ByteStr`; the `finally` block always leaves
`is_processing = False`. -/
def async_text_to_speech (s : TTSState) (text : String)
    (up : Except Unit ByteStr) : ByteStr × TTSState × Nat :=
  match dictLookup s.cache text with
  | some audio =>
      (audio,
       { s with cache_hits := s.cache_hits + 1, is_processing := false }, 0)
  | none =>
      match text_to_speech s text up with
      | (Except.ok audio, s1, n) =>
          (audio,
           { s1 with cache := dictInsert s1.cache text audio
                     is_processing := false }, n)
      | (Except.error _, s1, n) =>
          ([], { s1 with is_processing := false }, n)

/-- One cache-affecting call into the synthesis client: either the synchronous
`text_to_speech` or the asynchronous `async_text_to_speech`, together with the
upstream outcome it would observe. -/
inductive TTSCall where
  | sync : String → Except Unit ByteStr → TTSCall
  | async : String → Except Unit ByteStr → TTSCall

/-- Run a sequence of synthesis calls, threading the client state. -/
def runCalls (s : TTSState) : List TTSCall → TTSState
  | [] => s
  | TTSCall.sync t u :: rest => runCalls (text_to_speech s t u).2.1 rest
  | TTSCall.async t u :: rest => runCalls (async_text_to_speech s t u).2.1 rest

/-- A text of exactly 100 characters (so `len(text) < 100` is false). -/
def longText : String := String.mk (List.replicate 100 'x')

/-- Fifty distinct short texts to fill the cache to capacity, then one
`async_text_to_speech` call with a fresh 100-character text. -/
def overflowCalls : List TTSCall :=
  (List.range 50).map (fun i => TTSCall.sync (toString i) (Except.ok [i]))
    ++ [TTSCall.async longText (Except.ok [99])]

/-- Claim C2 (code bug evidence): the cache size invariant fails.  Starting
from a fresh client, fifty successful `text_to_speech` calls with distinct
texts fill the cache exactly to `cache_max_size = 50`; one further
`async_text_to_speech` call with a new 100-character text then grows the cache
to 51 entries, because line 366 (`self.cache[text] = audio_data`) stores
unconditionally, bypassing the capacity/eviction policy of lines 130-137.  The
claimed invariant "size never exceeds `cache_max_size`, and at capacity a large
text is silently dropped" is violated by the code at this input. -/
theorem C2_cache_overflow :
    (runCalls initState overflowCalls).cache.length = 51 ∧
    initState.cache_max_size = 50 := by
  constructor
  · rfl
  · rfl

/-- Claim C6: cache idempotence.  If a first `text_to_speech` call returned
audio `a` and left the cache warm for `t` (i.e. `t` maps to `a` afterwards),
then a second call with the same `t` returns the byte-identical `a` and issues
zero upstream POSTs, whatever the upstream would have answered. -/
theorem C6_cache_idempotent (s : TTSState) (t : String)
    (u1 u2 : Except Unit ByteStr) (a : ByteStr)
    (_h1 : (text_to_speech s t u1).1 = Except.ok a)
    (h2 : dictLookup (text_to_speech s t u1).2.1.cache t = some a) :
    (text_to_speech (text_to_speech s t u1).2.1 t u2).1 = Except.ok a ∧
    (text_to_speech (text_to_speech s t u1).2.1 t u2).2.2 = 0 := by
  generalize hgen : (text_to_speech s t u1).2.1 = s1 at h2 ⊢
  unfold text_to_speech
  rw [h2]
  exact ⟨rfl, rfl⟩

/-- Concrete instance of C6: a fresh client, `t = "hi"`, first upstream answer
`[1, 2]`; the second call returns `[1, 2]` with zero upstream POSTs even though
the upstream would now fail. -/
theorem C6_cache_idempotent_witness :
    (text_to_speech (text_to_speech initState "hi" (Except.ok [1, 2])).2.1 "hi"
        (Except.error ())).1 = Except.ok [1, 2] ∧
    (text_to_speech (text_to_speech initState "hi" (Except.ok [1, 2])).2.1 "hi"
        (Except.error ())).2.2 = 0 :=
  C6_cache_idempotent initState "hi" (Except.ok [1, 2]) (Except.error ())
    [1, 2] (by rfl) (by rfl)

/-- Claim C10: `async_text_to_speech` never raises (its `except Exception`
catches everything, reflected by the model being a total function into
`ByteStr`); it always returns with `is_processing = False`, and whenever an
error actually occurs — i.e. the cache misses and the upstream request fails —
it returns the empty byte string. -/
theorem C10_async_no_raise (s : TTSState) (t : String)
    (up : Except Unit ByteStr) :
    (async_text_to_speech s t up).2.1.is_processing = false ∧
    (dictLookup s.cache t = none → up = Except.error () →
      (async_text_to_speech s t up).1 = []) := by
  unfold async_text_to_speech
  cases h : dictLookup s.cache t with
  | some audio => exact ⟨rfl, by intro hc hu; cases hc⟩
  | none =>
      unfold text_to_speech
      rw [h]
      cases up with
      | error e => exact ⟨rfl, fun _ _ => rfl⟩
      | ok audio => exact ⟨rfl, fun _ hu => by cases hu⟩

/-- Concrete instance of C10: a fresh client whose upstream request fails
returns `b""` and is left with `is_processing = False`. -/
theorem C10_async_no_raise_witness :
    (async_text_to_speech initState "oops" (Except.error ())).2.1.is_processing
        = false ∧
    (async_text_to_speech initState "oops" (Except.error ())).1 = [] := by
  have h := C10_async_no_raise initState "oops" (Except.error ())
  exact ⟨h.1, h.2 (by rfl) rfl⟩

/-- The fixed-size re-slices produced by the non-chunked branch of
`stream_text_to_speech1` (tts.py lines 199-210): `total_chunks` is
`ceil(len/chunk_size)` computed as `(len + chunk_size - 1) // chunk_size`, and
chunk `i` is `audio_data[i*chunk_size : min((i+1)*chunk_size, len)]`. -/
def sliceChunks (data : ByteStr) (sz : Nat) : List ByteStr :=
  (List.range ((data.length + sz - 1) / sz)).map
    (fun i => (data.drop (i * sz)).take sz)

/-- `TTSClient.stream_text_to_speech1` (tts.py lines 158-225), as the list of
chunks it yields.  `chunked` is whether the upstream response carries
`transfer-encoding: chunked`; `ucs` are the chunks `iter_content` delivers in
that case (HTTP reassembly guarantees their concatenation is the body); `body`
is `response.content`; `sz` is `self.chunk_size`.  In the chunked branch only
truthy (non-empty) chunks are yielded; in the other branch the buffered body is
re-sliced into fixed-size pieces. -/
def stream_text_to_speech1 (chunked : Bool) (ucs : List ByteStr)
    (body : ByteStr) (sz : Nat) : List ByteStr :=
  if chunked then ucs.filter (fun c => !c.isEmpty)
  else sliceChunks body sz

/-- Dropping the empty chunks that `if chunk:` filters out does not change the
concatenation. -/
theorem bjoin_filter_nonempty (ucs : List ByteStr) :
    bjoin (ucs.filter (fun c => !c.isEmpty)) = bjoin ucs := by
  induction ucs with
  | nil => rfl
  | cons c cs ih =>
      cases c with
      | nil => simpa [List.filter, bjoin] using ih
      | cons b bs => simp [List.filter, bjoin, ih]

/-- Ceiling-division arithmetic behind the slice count: for non-empty data the
slice count is one more than the slice count of the data with `sz` bytes
removed. -/
theorem chunkCount_succ (sz L : Nat) (hsz : 0 < sz) (hL : 0 < L) :
    (L + sz - 1) / sz = (L - sz + sz - 1) / sz + 1 := by
  have e1 : L + sz - 1 = (L - 1) + sz := by omega
  rw [e1, Nat.add_div_right _ hsz]
  rcases Nat.le_total sz L with hge | hle
  · have e2 : L - sz + sz - 1 = L - 1 := by omega
    rw [e2]
  · have e2 : L - sz + sz - 1 = sz - 1 := by omega
    rw [e2]
    have h3 : (sz - 1) / sz = 0 := Nat.div_eq_of_lt (by omega)
    have h4 : (L - 1) / sz = 0 := Nat.div_eq_of_lt (by omega)
    omega

/-- `sliceChunks` of empty data is empty. -/
theorem sliceChunks_nil (sz : Nat) (hsz : 0 < sz) :
    sliceChunks ([] : ByteStr) sz = [] := by
  unfold sliceChunks
  have h0 : ((List.length ([] : ByteStr)) + sz - 1) / sz = 0 :=
    Nat.div_eq_of_lt (by simp; omega)
  rw [h0]
  rfl

/-- Unfolding step: the slices of non-empty data are its first `sz` bytes
followed by the slices of the rest. -/
theorem sliceChunks_cons (sz : Nat) (hsz : 0 < sz) (data : ByteStr)
    (hd : data ≠ []) :
    sliceChunks data sz = data.take sz :: sliceChunks (data.drop sz) sz := by
  have hL : 0 < data.length := List.length_pos.mpr hd
  unfold sliceChunks
  rw [List.length_drop, chunkCount_succ sz data.length hsz hL,
    List.range_succ_eq_map, List.map_cons, List.map_map]
  have hhead : (data.drop (0 * sz)).take sz = data.take sz := by simp
  have hfun : ((fun i => (data.drop (i * sz)).take sz) ∘ Nat.succ) =
      (fun i => ((data.drop sz).drop (i * sz)).take sz) := by
    funext i
    have : (data.drop sz).drop (i * sz) = data.drop (Nat.succ i * sz) := by
      rw [List.drop_drop, Nat.succ_mul, Nat.add_comm]
    simp [Function.comp, this]
  rw [hhead, hfun]

/-- Re-slicing is lossless: concatenating the fixed-size slices recovers the
buffered body (fuel-indexed helper). -/
theorem bjoin_sliceChunks_aux (sz : Nat) (hsz : 0 < sz) :
    ∀ (n : Nat) (data : ByteStr), data.length ≤ n →
      bjoin (sliceChunks data sz) = data := by
  intro n
  induction n with
  | zero =>
      intro data h
      have hd : data = [] := by
        cases data with
        | nil => rfl
        | cons a as => simp at h
      rw [hd, sliceChunks_nil sz hsz]
      rfl
  | succ n ih =>
      intro data h
      by_cases hd : data = []
      · rw [hd, sliceChunks_nil sz hsz]
        rfl
      · rw [sliceChunks_cons sz hsz data hd]
        have hlen : (data.drop sz).length ≤ n := by
          rw [List.length_drop]
          have : 0 < data.length := List.length_pos.mpr hd
          omega
        rw [bjoin, ih (data.drop sz) hlen]
        exact List.take_append_drop sz data

/-- Re-slicing is lossless: concatenating the fixed-size slices recovers the
buffered body. -/
theorem bjoin_sliceChunks (sz : Nat) (hsz : 0 < sz) (data : ByteStr) :
    bjoin (sliceChunks data sz) = data :=
  bjoin_sliceChunks_aux sz hsz data.length data (Nat.le_refl _)

/-- Claim C5: for a text longer than the configured chunk size, the chunks
yielded by `stream_text_to_speech1` concatenate to exactly the batch output of
`text_to_speech` on the same upstream body, whether the upstream response was
chunked (chunks forwarded as delivered, empties dropped) or not (the buffered
body is re-sliced); the concatenation is the same `body` either way, so the two
paths are indistinguishable to a caller that joins the chunks. -/
theorem C5_stream_batch_agree (t : String) (sz : Nat) (body : ByteStr)
    (ucs : List ByteStr) (s : TTSState)
    (hsz : 0 < sz) (_ht : sz < t.length)
    (hu : bjoin ucs = body) (hmiss : dictLookup s.cache t = none) :
    (text_to_speech s t (Except.ok body)).1 = Except.ok body ∧
    bjoin (stream_text_to_speech1 true ucs body sz) = body ∧
    bjoin (stream_text_to_speech1 false ucs body sz) = body := by
  refine ⟨?_, ?_, ?_⟩
  · unfold text_to_speech
    rw [hmiss]
  · unfold stream_text_to_speech1
    rw [if_pos rfl, bjoin_filter_nonempty, hu]
  · unfold stream_text_to_speech1
    rw [if_neg (by simp), bjoin_sliceChunks sz hsz body]

/-- Concrete instance of C5: chunk size 2, text "abc" (length 3 > 2), upstream
body `[1, 2, 3]` delivered either as chunks `[1, 2], [3]` or whole; both
streaming paths concatenate to the batch output `[1, 2, 3]`. -/
theorem C5_stream_batch_agree_witness :
    (text_to_speech initState "abc" (Except.ok [1, 2, 3])).1 =
        Except.ok [1, 2, 3] ∧
    bjoin (stream_text_to_speech1 true [[1, 2], [3]] [1, 2, 3] 2) = [1, 2, 3] ∧
    bjoin (stream_text_to_speech1 false [[1, 2], [3]] [1, 2, 3] 2) = [1, 2, 3] :=
  C5_stream_batch_agree "abc" 2 [1, 2, 3] [[1, 2], [3]] initState
    (by omega) (by decide) (by rfl) (by rfl)

/-- JSON frames that `stream_text_to_speech` sends over the websocket.
`errorFrame` is the `{"type": "error", ...}` frame of tts.py lines 326-331; it
is only reachable when a websocket send itself raises, which the model (whose
websocket delivery always succeeds) never exercises — upstream transport
errors do NOT reach that handler, see `C1_upstream_error_counterexample`. -/
inductive WsEvent where
  | tts_start : WsEvent
  | tts_chunk : ByteStr → WsEvent
  | tts_end : WsEvent
  | errorFrame : WsEvent
deriving Repr, DecidableEq

/-- Execution trace entries: a frame actually sent, or one evaluation of
`self.interrupt_event.is_set()` with the value it observed. -/
inductive TraceEv where
  | ws : WsEvent → TraceEv
  | check : Bool → TraceEv
deriving Repr, DecidableEq

/-- Fused semantics of `generate_chunks` (tts.py lines 242-283) being consumed
by the sending loop of `stream_text_to_speech` (lines 294-313), for the
upstream suffix `cs` and starting at interrupt-check index `k`.

`trig k` is the value `interrupt_event.is_set()` returns at the k-th check
after the `clear()` on entry (line 236); since nothing clears the flag during
one stream, a run of the real code always yields a monotone `trig`.
`err` records whether the upstream request raises after delivering `cs`
(covering both a failed `requests.post`/`raise_for_status` with `cs = []` and a
mid-iteration transport error); the `except` of lines 280-283 turns that into a
single `yield b""`, which the consumer's `if chunk:` filter drops after one
more interrupt check.

Per delivered chunk the checks happen in this order: the generator's check
before yielding (line 262), the consumer's check before sending (line 296), the
consumer's check after sending (line 311), the generator's check after the
yield resumes (line 273); each observed `True` breaks immediately, and a break
in either loop ends the whole chunk phase (an abandoned generator is never
resumed).  Falsy upstream chunks consume only the generator's pre-check. -/
def streamTrace (trig : Nat → Bool) (err : Bool) :
    List ByteStr → Nat → List TraceEv
  | [], k =>
      if err then [TraceEv.check (trig k)] else []
  | c :: cs, k =>
      TraceEv.check (trig k) ::
        (if trig k then []
         else if c.isEmpty then streamTrace trig err cs (k + 1)
         else
           TraceEv.check (trig (k + 1)) ::
             (if trig (k + 1) then []
              else
                TraceEv.ws (WsEvent.tts_chunk c) ::
                  TraceEv.check (trig (k + 2)) ::
                    (if trig (k + 2) then []
                     else
                       TraceEv.check (trig (k + 3)) ::
                         (if trig (k + 3) then []
                          else streamTrace trig err cs (k + 4)))))

/-- The whole execution trace of `stream_text_to_speech` (tts.py lines
227-334): the check guarding `tts_start` (line 290), the chunk phase, and the
unconditional terminal `tts_end` (line 316). -/
def fullTrace (cs : List ByteStr) (err : Bool) (trig : Nat → Bool) :
    List TraceEv :=
  (TraceEv.check (trig 0) ::
      (if trig 0 then [] else [TraceEv.ws WsEvent.tts_start])) ++
    streamTrace trig err cs 1 ++ [TraceEv.ws WsEvent.tts_end]

/-- The frames a trace actually delivers to the websocket consumer. -/
def wsEvents (tr : List TraceEv) : List WsEvent :=
  tr.filterMap (fun e =>
    match e with
    | TraceEv.ws w => some w
    | TraceEv.check _ => none)

/-- Consumer-visible outcome of `TTSClient.stream_text_to_speech`: the ordered
list of frames sent over the websocket. -/
def stream_text_to_speech (cs : List ByteStr) (err : Bool)
    (trig : Nat → Bool) : List WsEvent :=
  wsEvents (fullTrace cs err trig)

/-- Whether a trace contains a forwarded audio chunk. -/
def hasChunk : List TraceEv → Bool
  | [] => false
  | TraceEv.ws (WsEvent.tts_chunk _) :: _ => true
  | _ :: rest => hasChunk rest

/-- No audio chunk is forwarded at or after the first interrupt check that
observes the flag set. -/
def noChunkAfterSet : List TraceEv → Bool
  | [] => true
  | TraceEv.check true :: rest => !hasChunk rest
  | _ :: rest => noChunkAfterSet rest

/-- Recognize the terminal sentinel frame. -/
def isEnd : WsEvent → Bool
  | WsEvent.tts_end => true
  | _ => false

/-- Recognize the explicit error frame. -/
def isErrFrame : WsEvent → Bool
  | WsEvent.errorFrame => true
  | _ => false

/-- Number of terminal sentinels in a frame list. -/
def countEnd (l : List WsEvent) : Nat := l.countP isEnd

/-- The interrupt flag observed as never set. -/
def neverSet : Nat → Bool := fun _ => false

/-- The interrupt flag observed as set from the very first check. -/
def alwaysSet : Nat → Bool := fun _ => true

/-- Whether one trace entry is a forwarded audio chunk. -/
def isChunkEv : TraceEv → Bool
  | TraceEv.ws (WsEvent.tts_chunk _) => true
  | _ => false

theorem wsEvents_append (a b : List TraceEv) :
    wsEvents (a ++ b) = wsEvents a ++ wsEvents b := by
  unfold wsEvents
  exact List.filterMap_append a b _

theorem wsEvents_cons_check (b : Bool) (l : List TraceEv) :
    wsEvents (TraceEv.check b :: l) = wsEvents l := by
  simp [wsEvents]

theorem wsEvents_cons_ws (w : WsEvent) (l : List TraceEv) :
    wsEvents (TraceEv.ws w :: l) = w :: wsEvents l := by
  simp [wsEvents]

/-- Once a check observes the flag, the chunk phase emits nothing further. -/
theorem wsEvents_streamTrace_of_set (trig : Nat → Bool) (err : Bool)
    (cs : List ByteStr) (k : Nat) (h : trig k = true) :
    wsEvents (streamTrace trig err cs k) = [] := by
  cases cs with
  | nil =>
      unfold streamTrace
      by_cases herr : err <;> simp [herr, wsEvents]
  | cons c cs2 =>
      unfold streamTrace
      simp [h, wsEvents]

/-- Once a check observes the flag, the remaining trace contains no chunk. -/
theorem hasChunk_streamTrace_of_set (trig : Nat → Bool) (err : Bool)
    (cs : List ByteStr) (k : Nat) (h : trig k = true) :
    hasChunk (streamTrace trig err cs k) = false := by
  cases cs with
  | nil =>
      unfold streamTrace
      by_cases herr : err <;> simp [herr, hasChunk, isChunkEv]
  | cons c cs2 =>
      unfold streamTrace
      simp [h, hasChunk, isChunkEv]

/-- Every frame the chunk phase emits is an audio chunk (no sentinels and no
error frames are produced between `tts_start` and `tts_end`). -/
theorem streamTrace_events_chunks (trig : Nat → Bool) (err : Bool) :
    ∀ (cs : List ByteStr) (k : Nat) (w : WsEvent),
      w ∈ wsEvents (streamTrace trig err cs k) →
      ∃ c, w = WsEvent.tts_chunk c := by
  intro cs
  induction cs with
  | nil =>
      intro k w hw
      unfold streamTrace at hw
      by_cases herr : err <;> simp [herr, wsEvents] at hw
  | cons c cs2 ih =>
      intro k w hw
      unfold streamTrace at hw
      rw [wsEvents_cons_check] at hw
      by_cases h0 : trig k
      · simp [h0, wsEvents] at hw
      · rw [if_neg h0] at hw
        by_cases hc : c.isEmpty
        · rw [if_pos hc] at hw
          exact ih (k + 1) w hw
        · rw [if_neg hc, wsEvents_cons_check] at hw
          by_cases h1 : trig (k + 1)
          · simp [h1, wsEvents] at hw
          · rw [if_neg h1, wsEvents_cons_ws] at hw
            rcases List.mem_cons.mp hw with hl | hw2
            · exact ⟨c, hl⟩
            · rw [wsEvents_cons_check] at hw2
              by_cases h2 : trig (k + 2)
              · simp [h2, wsEvents] at hw2
              · rw [if_neg h2, wsEvents_cons_check] at hw2
                by_cases h3 : trig (k + 3)
                · simp [h3, wsEvents] at hw2
                · rw [if_neg h3] at hw2
                  exact ih (k + 4) w hw2

/-- The chunk phase emits the same frames whether or not the upstream request
raises after delivering its chunks: the `except` of lines 280-283 yields only a
`b""`, which the consumer's `if chunk:` filter drops. -/
theorem wsEvents_streamTrace_err_irrel (trig : Nat → Bool) :
    ∀ (cs : List ByteStr) (k : Nat),
      wsEvents (streamTrace trig true cs k) =
        wsEvents (streamTrace trig false cs k) := by
  intro cs
  induction cs with
  | nil =>
      intro k
      unfold streamTrace
      simp [wsEvents]
  | cons c cs2 ih =>
      intro k
      unfold streamTrace
      rw [wsEvents_cons_check, wsEvents_cons_check]
      by_cases h0 : trig k
      · rw [if_pos h0, if_pos h0]
      · rw [if_neg h0, if_neg h0]
        by_cases hc : c.isEmpty
        · rw [if_pos hc, if_pos hc]
          exact ih (k + 1)
        · rw [if_neg hc, if_neg hc, wsEvents_cons_check, wsEvents_cons_check]
          by_cases h1 : trig (k + 1)
          · rw [if_pos h1, if_pos h1]
          · rw [if_neg h1, if_neg h1, wsEvents_cons_ws, wsEvents_cons_ws,
              wsEvents_cons_check, wsEvents_cons_check]
            by_cases h2 : trig (k + 2)
            · rw [if_pos h2, if_pos h2]
            · rw [if_neg h2, if_neg h2, wsEvents_cons_check,
                wsEvents_cons_check]
              by_cases h3 : trig (k + 3)
              · rw [if_pos h3, if_pos h3]
              · rw [if_neg h3, if_neg h3]
                rw [ih (k + 4)]

/-- The chunk phase followed by any chunk-free tail satisfies the interrupt
discipline: each check that observes the flag set is followed by a break, so no
chunk is ever forwarded after it. -/
theorem noChunkAfterSet_streamTrace (trig : Nat → Bool) (err : Bool)
    (tail : List TraceEv) (ht1 : hasChunk tail = false)
    (ht2 : noChunkAfterSet tail = true) :
    ∀ (cs : List ByteStr) (k : Nat),
      noChunkAfterSet (streamTrace trig err cs k ++ tail) = true := by
  intro cs
  induction cs with
  | nil =>
      intro k
      unfold streamTrace
      by_cases herr : err
      · by_cases h : trig k <;>
          simp [herr, h, noChunkAfterSet, ht1, ht2]
      · simp [herr, ht2]
  | cons c cs2 ih =>
      intro k
      unfold streamTrace
      by_cases h0 : trig k
      · simp [h0, noChunkAfterSet, ht1]
      · by_cases hc : c.isEmpty
        · simpa [h0, hc, noChunkAfterSet] using ih (k + 1)
        · by_cases h1 : trig (k + 1)
          · simp [h0, hc, h1, noChunkAfterSet, ht1]
          · by_cases h2 : trig (k + 2)
            · simp [h0, hc, h1, h2, noChunkAfterSet, hasChunk, isChunkEv, ht1]
            · by_cases h3 : trig (k + 3)
              · simp [h0, hc, h1, h2, h3, noChunkAfterSet, hasChunk,
                  isChunkEv, ht1]
              · simpa [h0, hc, h1, h2, h3, noChunkAfterSet] using ih (k + 4)

/-- Helper: the whole stream always delivers exactly one `tts_end`. -/
theorem countEnd_stream (cs : List ByteStr) (err : Bool) (trig : Nat → Bool) :
    countEnd (stream_text_to_speech cs err trig) = 1 := by
  have hmid : (wsEvents (streamTrace trig err cs 1)).countP isEnd = 0 := by
    refine List.countP_eq_zero.mpr ?_
    intro w hw
    obtain ⟨c, rfl⟩ := streamTrace_events_chunks trig err cs 1 w hw
    simp [isEnd]
  unfold stream_text_to_speech fullTrace
  rw [wsEvents_append, wsEvents_append, wsEvents_cons_check]
  unfold countEnd
  rw [List.countP_append, List.countP_append, hmid]
  by_cases h0 : trig 0
  · rw [if_pos h0]
    decide
  · rw [if_neg h0]
    decide

/-- Helper: the whole stream never delivers an explicit error frame (the model
assumes websocket delivery itself succeeds; the only error-frame site, lines
326-331, is guarded by a websocket send raising). -/
theorem errFree_stream (cs : List ByteStr) (err : Bool) (trig : Nat → Bool) :
    (stream_text_to_speech cs err trig).countP isErrFrame = 0 := by
  have hmid : (wsEvents (streamTrace trig err cs 1)).countP isErrFrame = 0 := by
    refine List.countP_eq_zero.mpr ?_
    intro w hw
    obtain ⟨c, rfl⟩ := streamTrace_events_chunks trig err cs 1 w hw
    simp [isErrFrame]
  unfold stream_text_to_speech fullTrace
  rw [wsEvents_append, wsEvents_append, wsEvents_cons_check]
  rw [List.countP_append, List.countP_append, hmid]
  by_cases h0 : trig 0
  · rw [if_pos h0]
    decide
  · rw [if_neg h0]
    decide

/-- Helper: the consumer-visible frames are identical whether or not the
upstream request raised after delivering its chunks. -/
theorem stream_err_irrel (cs : List ByteStr) (trig : Nat → Bool) :
    stream_text_to_speech cs true trig = stream_text_to_speech cs false trig := by
  unfold stream_text_to_speech fullTrace
  rw [wsEvents_append, wsEvents_append, wsEvents_append, wsEvents_append,
    wsEvents_streamTrace_err_irrel trig cs 1]

theorem hasChunk_append (a b : List TraceEv) :
    hasChunk (a ++ b) = (hasChunk a || hasChunk b) := by
  induction a with
  | nil => simp [hasChunk]
  | cons x rest ih =>
      cases x with
      | check b2 => simpa [hasChunk] using ih
      | ws w =>
          cases w with
          | tts_chunk c => simp [hasChunk]
          | tts_start => simpa [hasChunk] using ih
          | tts_end => simpa [hasChunk] using ih
          | errorFrame => simpa [hasChunk] using ih

/-- Claim C1 counterexample: an upstream transport error that raises after one
chunk produces exactly the frames `tts_start`, `tts_chunk [1]`, `tts_end` —
byte-for-byte the same consumer-visible outcome as a clean completion with the
same chunk, with no error frame and only the normal terminal sentinel.  The
claim that an upstream error is surfaced as a distinguishable stream-error
outcome is therefore false: `generate_chunks` (lines 280-283) swallows the
exception and yields `b""`, which the sender filters out before line 316 sends
the ordinary `tts_end`. -/
theorem C1_upstream_error_counterexample :
    stream_text_to_speech [[1]] true neverSet =
        [WsEvent.tts_start, WsEvent.tts_chunk [1], WsEvent.tts_end] ∧
    stream_text_to_speech [[1]] false neverSet =
        [WsEvent.tts_start, WsEvent.tts_chunk [1], WsEvent.tts_end] := by
  exact ⟨rfl, rfl⟩

/-- Claim C1 as amended: an upstream transport error during streaming
synthesis is logged and then swallowed — the chunks delivered before the error
are forwarded unchanged, no error frame is sent, and exactly one ordinary
`tts_end` sentinel is emitted, so the consumer-visible outcome is identical to
a clean completion that produced the same chunks (only a websocket send
failure, not an upstream error, can reach the error-frame path of lines
326-331). -/
theorem C1_upstream_error_swallowed (cs : List ByteStr) (trig : Nat → Bool) :
    stream_text_to_speech cs true trig = stream_text_to_speech cs false trig ∧
    (stream_text_to_speech cs true trig).countP isErrFrame = 0 ∧
    countEnd (stream_text_to_speech cs true trig) = 1 :=
  ⟨stream_err_irrel cs trig, errFree_stream cs true trig,
    countEnd_stream cs true trig⟩

/-- Claim C3: when the interrupt flag is observed set from the first check of
the stream (the `clear()` on entry, line 236, discards any pre-call value, so
this is the earliest a set can take effect; the flag is never cleared during
the stream, hence `trig` is monotone), the stream forwards zero audio chunks —
indeed it sends no frame at all except exactly one terminal `tts_end` sentinel
— and the model is a total function, so the stream ends after finitely many
steps. -/
theorem C3_interrupt_before_stream (cs : List ByteStr) (err : Bool)
    (trig : Nat → Bool)
    (hmono : ∀ i j, i ≤ j → trig i = true → trig j = true)
    (h0 : trig 0 = true) :
    stream_text_to_speech cs err trig = [WsEvent.tts_end] := by
  have h1 : trig 1 = true := hmono 0 1 (by omega) h0
  unfold stream_text_to_speech fullTrace
  rw [wsEvents_append, wsEvents_append, wsEvents_cons_check, if_pos h0,
    wsEvents_streamTrace_of_set trig err cs 1 h1]
  rfl

/-- Concrete instance of C3: with the flag set from the start, a stream with
two pending upstream chunks delivers exactly `[tts_end]`. -/
theorem C3_interrupt_before_stream_witness :
    stream_text_to_speech [[1], [2]] false alwaysSet = [WsEvent.tts_end] :=
  C3_interrupt_before_stream [[1], [2]] false alwaysSet
    (fun _ _ _ h => h) rfl

/-- Claim C4: for any monotone observation of the interrupt flag (set once,
never cleared mid-stream), no audio chunk is forwarded after the first
interrupt check that observes the flag set, and the stream emits exactly one
terminal `tts_end` sentinel — never two. -/
theorem C4_interrupt_midstream (cs : List ByteStr) (err : Bool)
    (trig : Nat → Bool)
    (hmono : ∀ i j, i ≤ j → trig i = true → trig j = true) :
    noChunkAfterSet (fullTrace cs err trig) = true ∧
    countEnd (stream_text_to_speech cs err trig) = 1 := by
  refine ⟨?_, countEnd_stream cs err trig⟩
  unfold fullTrace
  by_cases h0 : trig 0
  · have h1 : trig 1 = true := hmono 0 1 (by omega) h0
    have hsc : hasChunk (streamTrace trig err cs 1) = false :=
      hasChunk_streamTrace_of_set trig err cs 1 h1
    rw [h0]
    simp [noChunkAfterSet, hasChunk_append, hsc, hasChunk]
  · have hrest :
        noChunkAfterSet (streamTrace trig err cs 1 ++
          [TraceEv.ws WsEvent.tts_end]) = true :=
      noChunkAfterSet_streamTrace trig err [TraceEv.ws WsEvent.tts_end]
        (by decide) (by decide) cs 1
    simpa [h0, noChunkAfterSet] using hrest

/-- Concrete instance of C4: the flag becomes observed from the third check
onwards while three upstream chunks are pending; the trace satisfies the
no-chunk-after-set discipline and exactly one `tts_end` is sent. -/
theorem C4_interrupt_midstream_witness :
    noChunkAfterSet (fullTrace [[1], [2], [3]] false (fun k => Nat.ble 3 k))
        = true ∧
    countEnd (stream_text_to_speech [[1], [2], [3]] false
        (fun k => Nat.ble 3 k)) = 1 :=
  C4_interrupt_midstream [[1], [2], [3]] false (fun k => Nat.ble 3 k)
    (by
      intro i j hij hi
      have h3i : 3 ≤ i := Nat.le_of_ble_eq_true hi
      exact Nat.ble_eq_true_of_le (Nat.le_trans h3i hij))

/-- Observable outcome of one `send_ws_message` call: the payloads of the
`ws.send` attempts in order, the number of reconnect attempts after a failure,
the number of error entries put on `chatbot_history_queue`, whether the
message was delivered, and whether the first connection was closed. -/
structure SendOutcome where
  attempts : List String
  reconnects : Nat
  historyErrors : Nat
  delivered : Bool
  closedConn : Bool
deriving Repr, DecidableEq

/-- `send_ws_message` (gradio_app.py lines 53-75).  Oracle booleans: `c1` —
the initial `get_websocket_client()` yields a connection; `s1` — the first
`ws.send` succeeds; `c2` — the reconnect `get_websocket_client()` succeeds;
`s2` — the retried `ws.send` succeeds.  On a first-send failure the code calls
`close_websocket_client()`, reconnects once, retries the same payload once,
and on a retry failure (or a failed reconnect) puts one error entry on the
history queue instead of raising. -/
def send_ws_message (m : String) (c1 s1 c2 s2 : Bool) : SendOutcome :=
  if c1 then
    if s1 then
      { attempts := [m], reconnects := 0, historyErrors := 0
        delivered := true, closedConn := false }
    else if c2 then
      if s2 then
        { attempts := [m, m], reconnects := 1, historyErrors := 0
          delivered := true, closedConn := true }
      else
        { attempts := [m, m], reconnects := 1, historyErrors := 1
          delivered := false, closedConn := true }
    else
      { attempts := [m], reconnects := 1, historyErrors := 1
        delivered := false, closedConn := true }
  else
    { attempts := [], reconnects := 0, historyErrors := 1
      delivered := false, closedConn := false }

/-- Claim C7: `send_ws_message` attempts the current connection first; on a
send failure it closes the connection, reconnects exactly once and retries the
same payload exactly once; if the retry (or the reconnect) also fails it puts
a user-visible error entry on the history queue instead of raising; every
attempt carries the same message and there are never more than two send
attempts and one reconnect — no unbounded retry loop. -/
theorem C7_send_retry_once (m : String) (c1 s1 c2 s2 : Bool) :
    ((send_ws_message m c1 s1 c2 s2).attempts = [] ∨
      (send_ws_message m c1 s1 c2 s2).attempts = [m] ∨
      (send_ws_message m c1 s1 c2 s2).attempts = [m, m]) ∧
    (send_ws_message m c1 s1 c2 s2).reconnects ≤ 1 ∧
    (c1 = true → (send_ws_message m c1 s1 c2 s2).attempts ≠ []) ∧
    (c1 = true → s1 = false →
      (send_ws_message m c1 s1 c2 s2).closedConn = true ∧
      (send_ws_message m c1 s1 c2 s2).reconnects = 1 ∧
      (c2 = true → (send_ws_message m c1 s1 c2 s2).attempts = [m, m])) ∧
    (c1 = true → s1 = false → c2 = true → s2 = false →
      (send_ws_message m c1 s1 c2 s2).historyErrors = 1 ∧
      (send_ws_message m c1 s1 c2 s2).delivered = false) := by
  cases c1 <;> cases s1 <;> cases c2 <;> cases s2 <;>
    simp [send_ws_message]

/-- Concrete instance of C7: first send fails, reconnect succeeds, retry fails;
exactly two attempts of the same payload, one reconnect, one visible error. -/
theorem C7_send_retry_once_witness :
    (send_ws_message "hello" true false true false).historyErrors = 1 ∧
    (send_ws_message "hello" true false true false).delivered = false :=
  (C7_send_retry_once "hello" true false true false).2.2.2.2 rfl rfl rfl rfl

/-- The audio-accumulation loop of `handle_text_input` (gradio_app.py lines
202-207) and `handle_audio_input` (lines 151-157): repeatedly
`asyncio.wait_for(tts_audio_queue.get(), timeout=perGet)` until the `None`
sentinel (queued on `tts_end`) arrives or a single `get` times out.
`arrivals` is the queue schedule: the pair `(d, item)` means the next `get`
would resolve `d` seconds after being issued, delivering `item` (`none` is the
sentinel); an exhausted schedule means no further item ever arrives.  Result:
(accumulated chunks, whether the loop ended by `TimeoutError`, total elapsed
seconds).  Note the timeout bounds each individual `get`, not the whole
loop. -/
def awaitAudioChunks (perGet : Nat) :
    List (Nat × Option ByteStr) → List ByteStr × Bool × Nat
  | [] => ([], true, perGet)
  | (d, item) :: rest =>
      if perGet < d then ([], true, perGet)
      else
        match item with
        | none => ([], false, d)
        | some c =>
            let r := awaitAudioChunks perGet rest
            (c :: r.1, r.2.1, d + r.2.2)

/-- Ten chunk frames arriving ten seconds apart, and no `tts_end` ever. -/
def slowDrip : List (Nat × Option ByteStr) :=
  List.replicate 10 (10, some [0])

/-- Claim C8 counterexample: in `handle_text_input` the per-turn budget is
`timeout = 20` seconds and each queue wait uses `timeout/2 = 10`; with ten
chunk frames arriving every 10 seconds and `tts_end` never arriving, the loop
does end as timed out, but only after 110 seconds — 90 seconds beyond the
whole per-turn budget, and growing linearly with the number of chunk frames,
because the timeout bounds each individual `get`, not the turn.  The claim
that the turn completes within the timeout budget plus a small constant
regardless of how many `tts_chunk` frames arrive is therefore false. -/
theorem C8_budget_counterexample :
    slowDrip.all (fun x => x.2.isSome) = true ∧
    (awaitAudioChunks 10 slowDrip).2.1 = true ∧
    (awaitAudioChunks 10 slowDrip).2.2 = 110 := by
  exact ⟨rfl, rfl, rfl⟩

/-- Claim C8 as amended: a turn whose audio queue never delivers the `tts_end`
sentinel does reach the timed-out outcome — it cannot hang — but only within
`perGet * (number of arrivals + 1)`, i.e. within one per-get timeout after the
last queue activity, a bound proportional to the number of chunk frames rather
than the fixed per-turn budget. -/
theorem C8_drain_terminates (perGet : Nat)
    (arr : List (Nat × Option ByteStr))
    (hns : ∀ x ∈ arr, x.2 ≠ none) :
    (awaitAudioChunks perGet arr).2.1 = true ∧
    (awaitAudioChunks perGet arr).2.2 ≤ perGet * (arr.length + 1) := by
  induction arr with
  | nil =>
      refine ⟨rfl, ?_⟩
      simp [awaitAudioChunks]
  | cons x rest ih =>
      obtain ⟨d, item⟩ := x
      have hx : item ≠ none := hns (d, item) (List.mem_cons_self _ _)
      have hrest : ∀ y ∈ rest, y.2 ≠ none :=
        fun y hy => hns y (List.mem_cons_of_mem _ hy)
      obtain ⟨hto, hel⟩ := ih hrest
      cases item with
      | none => exact absurd rfl hx
      | some c =>
          unfold awaitAudioChunks
          by_cases hd : perGet < d
          · rw [if_pos hd]
            exact ⟨rfl, by simp; nlinarith [Nat.zero_le (rest.length)]⟩
          · rw [if_neg hd]
            refine ⟨hto, ?_⟩
            have hdle : d ≤ perGet := Nat.le_of_not_lt hd
            simp only [List.length_cons]
            calc d + (awaitAudioChunks perGet rest).2.2
                ≤ perGet + perGet * (rest.length + 1) := by omega
              _ = perGet * (rest.length + 1 + 1) := by ring

/-- Concrete instance of the amended C8: one chunk after 5 seconds and no
sentinel; the loop times out, within 10 * 2 = 20 seconds. -/
theorem C8_drain_terminates_witness :
    (awaitAudioChunks 10 [(5, some [1])]).2.1 = true ∧
    (awaitAudioChunks 10 [(5, some [1])]).2.2 ≤ 20 :=
  C8_drain_terminates 10 [(5, some [1])] (by decide)

/-- One chatbot history entry, Python `[user_half, ai_half]` (gradio_app.py
lines 234-241): each half is text or `None`. -/
abbrev Entry := Option String × Option String

/-- One update dict taken off `chatbot_history_queue`: exactly one of the keys
`user`, `ai`, `error` (the elif chain of lines 233-241). -/
inductive HistUpdate where
  | user : String → HistUpdate
  | ai : String → HistUpdate
  | err : String → HistUpdate

/-- One iteration of the `stream_chatbot_display` loop (gradio_app.py lines
230-243) applied to the current history: a `user` update appends
`[text, None]`; an `ai` update back-fills `current_chat_history[-1][1]` in
place when the last entry exists and its AI half `is None`, and appends
`[None, text]` otherwise; an `error` update appends `[None, "ERROR: ..."]`. -/
def stream_chatbot_step (h : List Entry) (u : HistUpdate) : List Entry :=
  match u with
  | HistUpdate.user t => h ++ [(some t, none)]
  | HistUpdate.ai t =>
      match h.getLast? with
      | some e =>
          if e.2 = none then h.set (h.length - 1) (e.1, some t)
          else h ++ [(none, some t)]
      | none => h ++ [(none, some t)]
  | HistUpdate.err t => h ++ [(none, some ("ERROR: " ++ t))]

/-- Claim C9: an `ai` update writes into the most recent entry exactly when
that entry's AI half is still empty and otherwise appends a new entry; `user`
and `error` updates only append; and an AI text already recorded in any entry
is never overwritten by a later update of any kind (the entry is preserved at
its position). -/
theorem C9_history_updates (h : List Entry) (t : String) (u : HistUpdate) :
    (∀ e : Entry, h.getLast? = some e → e.2 = none →
      stream_chatbot_step h (HistUpdate.ai t) =
        h.set (h.length - 1) (e.1, some t)) ∧
    (∀ e : Entry, h.getLast? = some e → e.2 ≠ none →
      stream_chatbot_step h (HistUpdate.ai t) = h ++ [(none, some t)]) ∧
    (h = [] → stream_chatbot_step h (HistUpdate.ai t) = [(none, some t)]) ∧
    stream_chatbot_step h (HistUpdate.user t) = h ++ [(some t, none)] ∧
    stream_chatbot_step h (HistUpdate.err t) =
      h ++ [(none, some ("ERROR: " ++ t))] ∧
    (∀ (i : Nat) (e : Entry) (s : String), h[i]? = some e → e.2 = some s →
      (stream_chatbot_step h u)[i]? = some e) := by
  refine ⟨?_, ?_, ?_, rfl, rfl, ?_⟩
  · intro e he h2
    simp only [stream_chatbot_step, he]
    rw [if_pos h2]
  · intro e he h2
    simp only [stream_chatbot_step, he]
    rw [if_neg h2]
  · intro he
    rw [he]
    rfl
  · intro i e s hie hs
    have hilt : i < h.length := by
      by_contra hge
      rw [List.getElem?_eq_none (Nat.le_of_not_lt hge)] at hie
      cases hie
    cases u with
    | user t2 =>
        simp only [stream_chatbot_step]
        rw [List.getElem?_append_left hilt]
        exact hie
    | err t2 =>
        simp only [stream_chatbot_step]
        rw [List.getElem?_append_left hilt]
        exact hie
    | ai t2 =>
        simp only [stream_chatbot_step]
        cases hlast : h.getLast? with
        | none =>
            have hnil : h = [] := List.getLast?_eq_none_iff.mp hlast
            rw [hnil] at hilt
            simp at hilt
        | some e0 =>
            simp only [hlast]
            by_cases h20 : e0.2 = none
            · rw [if_pos h20]
              have hne : h.length - 1 ≠ i := by
                intro heq
                rw [List.getLast?_eq_getElem?] at hlast
                rw [heq, hie] at hlast
                injection hlast with h3
                rw [h3, h20] at hs
                cases hs
              rw [List.getElem?_set_ne hne]
              exact hie
            · rw [if_neg h20]
              rw [List.getElem?_append_left hilt]
              exact hie

/-- Concrete instance of C9: a `user` update appends, and the entry holding
the already-recorded AI text "done" is untouched at its position. -/
theorem C9_history_updates_witness :
    stream_chatbot_step [(some "q", none), (some "w", some "done")]
        (HistUpdate.user "z") =
      [(some "q", none), (some "w", some "done"), (some "z", none)] ∧
    (stream_chatbot_step [(some "q", none), (some "w", some "done")]
        (HistUpdate.user "z"))[1]? = some (some "w", some "done") :=
  ⟨(C9_history_updates [(some "q", none), (some "w", some "done")] "z"
      (HistUpdate.user "z")).2.2.2.1,
    (C9_history_updates [(some "q", none), (some "w", some "done")] "z"
      (HistUpdate.user "z")).2.2.2.2.2 1 (some "w", some "done") "done"
      (by rfl) (by rfl)⟩
